import Mathlib

/-!
Verification development for the image-generation feature of the
`microservices-online-boutique-gke` repository.

The repository ships the browser-side logic in
`src/frontend/static/js/image-generation.js` together with documentation of
the backend Image Generation Service (`src/imagegenerationservice/README.md`):
the backend source itself (`imagegenservice.py`) is not part of the tree, so
the Job Store / Gateway / Worker behaviour is modelled from the spec where a
definition says so, while every client-side definition is a direct shallow
embedding of the JavaScript file.
-/

namespace ImageGen

/-! ## Wire-level data shared by client and server -/

/-- A cart item as carried in the `cart_items` array of the submit request
(`{product_id, quantity}` in the documented JSON schema). -/
structure CartItem where
  product_id : String
  quantity : Nat
  deriving DecidableEq, Repr

/-- Body of `POST /api/v1/generate-image` as built by `generateImage` in
`image-generation.js`. -/
structure GenerateRequest where
  user_id : String
  style_preference : String
  background_image_url : String
  cart_items : List CartItem
  deriving DecidableEq, Repr

/-! ## Client: cart extraction (`getCartItemsFromPage`) -/

/-- One `.cart-summary-item-row` of the cart page as the script observes it:
`productHref` is the `href` of the `a[href*="/product/"]` link when such a
link exists in the row, and `quantityText` is the text content of the
quantity column when present (the extraction never gets to read it — see
`getCartItemsFromPage`). -/
structure CartRow where
  productHref : Option String
  quantityText : Option String
  deriving DecidableEq, Repr

/-- Shallow embedding of `getCartItemsFromPage` under native DOM semantics:
rows without a product link are skipped; for a row with a product link the
code computes the product id from the `href` and then evaluates
`row.querySelector('.col:contains("Quantity:")')` — but `:contains()` is a
jQuery-only extension, not a valid native CSS selector, so `querySelector`
throws a `SyntaxError` there and the whole extraction aborts (`none`)
before any item is pushed. Only pages with no linked rows complete,
returning `[]`. -/
def getCartItemsFromPage : List CartRow → Option (List CartItem)
  | [] => some []
  | row :: rest =>
    match row.productHref with
    | none => getCartItemsFromPage rest
    | some _ => none

/-! ## Client: submission (`generateImage`) -/

/-- Observable outcome of one `generateImage` invocation up to the point
where the request is (or is not) sent: either the empty-cart alert with an
early return, or a `fetch` of the submit endpoint with the given body.
`none` models the uncaught exception escaping `getCartItemsFromPage`. -/
inductive GenerateAction where
  | rejectEmptyCart : GenerateAction
  | sendRequest : GenerateRequest → GenerateAction
  deriving DecidableEq, Repr

/-- Shallow embedding of the front half of `generateImage`: read the style
preference, extract the cart rows, alert and return when the list is empty,
otherwise build the request body with `background_image_url` equal to
`uploadedBackgroundUrl || ''`. -/
def generateImage (stylePref userId : String) (bgUrl : Option String)
    (rows : List CartRow) : Option GenerateAction :=
  match getCartItemsFromPage rows with
  | none => none
  | some items =>
    if items.isEmpty then some GenerateAction.rejectEmptyCart
    else some (GenerateAction.sendRequest ⟨userId, stylePref, bgUrl.getD "", items⟩)

/-! ## Client: status polling (`pollGenerationStatus`) -/

/-- Body of one `GET /api/v1/status/...` response as the polling code reads
it (`progress` may be absent, hence `Option`). -/
structure PollResult where
  status : String
  progress : Option Nat
  image_url : String
  error_message : String
  deriving DecidableEq, Repr

/-- What one round of `pollGenerationStatus` does after reading a response:
show the finished image, run the failure path (the thrown error is caught,
alerted, and the form reset), schedule the next poll via
`setTimeout(pollGenerationStatus, 2000)`, or fall through silently. -/
inductive PollAction where
  | showImage : String → PollAction
  | failurePath : String → PollAction
  | schedulePoll : Nat → PollAction
  | stopSilently : PollAction
  deriving DecidableEq, Repr

/-- Shallow embedding of the dispatch in `pollGenerationStatus`: `completed`
shows the image, `failed` throws `result.error_message || 'Image generation
failed'` (caught by the surrounding `catch`, which alerts and resets the
form), `processing` schedules exactly one further poll after 2000 ms, and
any other status falls off the end of the function. -/
def handlePollResult (r : PollResult) : PollAction :=
  if r.status == "completed" then PollAction.showImage r.image_url
  else if r.status == "failed" then
    PollAction.failurePath (if r.error_message == "" then "Image generation failed" else r.error_message)
  else if r.status == "processing" then PollAction.schedulePoll 2000
  else PollAction.stopSilently

/-- Whether a poll outcome schedules a further `GetStatus` call. -/
def PollAction.schedulesPoll : PollAction → Bool
  | PollAction.schedulePoll _ => true
  | _ => false

/-- Whether a poll outcome is the user-visible failure path (alert plus form
reset). -/
def PollAction.isFailurePath : PollAction → Bool
  | PollAction.failurePath _ => true
  | _ => false

/-! ## Client: background upload (`handleBackgroundUpload`,
`uploadBackgroundToServer`, `removeBackground`) -/

/-- The selected file as `handleBackgroundUpload` observes it: MIME type,
byte size, and the base64 payload that `FileReader` would produce for it. -/
structure UploadFile where
  type : String
  size : Nat
  base64Data : String
  deriving DecidableEq, Repr

/-- Outcome of one `handleBackgroundUpload` invocation up to the point where
the upload request is (or is not) sent. -/
inductive UploadClientAction where
  | noFile : UploadClientAction
  | rejectNonImage : UploadClientAction
  | rejectTooLarge : UploadClientAction
  | sendUpload : String → UploadClientAction
  deriving DecidableEq, Repr

/-- The JavaScript `s.startsWith(pre)`. -/
def strStartsWith (s pre : String) : Bool :=
  pre.toList.isPrefixOf s.toList

/-- Shallow embedding of `handleBackgroundUpload`: return when no file is
selected, alert and return when `file.type` does not start with `image/`,
alert and return when `file.size > 10 * 1024 * 1024`, otherwise read the
file and post its base64 payload to `/api/v1/upload-background`. -/
def handleBackgroundUpload (file : Option UploadFile) : UploadClientAction :=
  match file with
  | none => UploadClientAction.noFile
  | some f =>
    if !(strStartsWith f.type "image/") then UploadClientAction.rejectNonImage
    else if f.size > 10 * 1024 * 1024 then UploadClientAction.rejectTooLarge
    else UploadClientAction.sendUpload f.base64Data

/-- The two client globals governing the background image:
`uploadedBackgroundUrl` and `uploadedBackgroundData` (both `null` at page
load). -/
structure ClientState where
  uploadedBackgroundUrl : Option String
  uploadedBackgroundData : Option String
  deriving DecidableEq, Repr

/-- Initial values of the globals (`let uploadedBackgroundUrl = null;
let uploadedBackgroundData = null;`). -/
def initialClientState : ClientState := ⟨none, none⟩

/-- `removeBackground` as far as the globals are concerned: both are set
back to `null`. -/
def removeBackground (_st : ClientState) : ClientState := ⟨none, none⟩

/-- What `uploadBackgroundToServer` observes for one upload: a JSON response
with the documented fields, or a thrown error (network failure, bad JSON). -/
inductive UploadOutcome where
  | response : String → String → String → UploadOutcome
  | threw : UploadOutcome
  deriving DecidableEq, Repr

/-- `true` exactly when the attempt is not a `status: "success"` response. -/
def uploadFailedOutcome : UploadOutcome → Bool
  | UploadOutcome.response s _ _ => s != "success"
  | UploadOutcome.threw => true

/-- Shallow embedding of the state effect of `uploadBackgroundToServer`:
on `result.status === 'success'` store `result.image_url` in
`uploadedBackgroundUrl`; on any other response, and in the `catch` branch,
alert and call `removeBackground()`. -/
def uploadBackgroundToServer (st : ClientState) (r : UploadOutcome) : ClientState :=
  match r with
  | UploadOutcome.response s url _ =>
    if s == "success" then ⟨some url, st.uploadedBackgroundData⟩
    else removeBackground st
  | UploadOutcome.threw => removeBackground st

/-- The `background_image_url` field a subsequent `generateImage` call would
send: `uploadedBackgroundUrl || ''`. -/
def sentBackgroundUrl (st : ClientState) : String :=
  st.uploadedBackgroundUrl.getD ""

/-- The events of the page that touch the two background globals: the
`FileReader` callback storing the base64 data, an upload attempt finishing,
the user removing the background, and the form reset (which nulls both). -/
inductive ClientEvent where
  | selectFile : String → ClientEvent
  | uploadFinished : UploadOutcome → ClientEvent
  | removeBg : ClientEvent
  | resetForm : ClientEvent
  deriving DecidableEq, Repr

/-- Effect of one event on the globals, read off the corresponding handler
in `image-generation.js`. -/
def clientStep (st : ClientState) (e : ClientEvent) : ClientState :=
  match e with
  | ClientEvent.selectFile b => ⟨st.uploadedBackgroundUrl, some b⟩
  | ClientEvent.uploadFinished r => uploadBackgroundToServer st r
  | ClientEvent.removeBg => removeBackground st
  | ClientEvent.resetForm => ⟨none, none⟩

/-- Run a sequence of events from a given state. -/
def clientRun (st : ClientState) (evs : List ClientEvent) : ClientState :=
  evs.foldl clientStep st

/-- Whether an event is an upload that succeeded with `image_url = u`. -/
def ClientEvent.isSuccessUpload (u : String) : ClientEvent → Bool
  | ClientEvent.uploadFinished (UploadOutcome.response s url _) => s == "success" && url == u
  | _ => false

/-! ## Server model

The backend (`imagegenservice.py`) is documented in the repository but its
source is not present under `src/`, so the Job Store, the Gateway operations
and the Generation Worker contract are modelled from the spec. -/

/-- Modelled from the spec: the stored `status` of a Job, one of
`processing | completed | failed` (`not_found` is a lookup result, never a
stored state); `imagegenservice.py` is not in the tree. -/
inductive JobStatus where
  | processing : JobStatus
  | completed : JobStatus
  | failed : JobStatus
  deriving DecidableEq, Repr

/-- A status is terminal when it is `completed` or `failed`. -/
def JobStatus.isTerminal : JobStatus → Bool
  | JobStatus.processing => false
  | JobStatus.completed => true
  | JobStatus.failed => true

/-- Wire string for a stored status. -/
def JobStatus.toWire : JobStatus → String
  | JobStatus.processing => "processing"
  | JobStatus.completed => "completed"
  | JobStatus.failed => "failed"

/-- Modelled from the spec: one Job record of the Job Store
(`imagegenservice.py` is not in the tree). `created_at` is irrelevant to the
claims and omitted. -/
structure Job where
  status : JobStatus
  progress : Nat
  image_url : String
  error_message : String
  deriving DecidableEq, Repr

/-- Modelled from the spec: the Job allocated by `create` — `processing`,
`progress = 0`, both payload fields empty. -/
def freshJob : Job := ⟨JobStatus.processing, 0, "", ""⟩

/-- Modelled from the spec: a partial-fields argument to the Job Store
`update` operation. -/
structure JobUpdate where
  status : Option JobStatus
  progress : Option Nat
  image_url : Option String
  error_message : Option String
  deriving DecidableEq, Repr

/-- Merge a partial update into a Job record. -/
def applyUpdate (j : Job) (u : JobUpdate) : Job :=
  ⟨u.status.getD j.status, u.progress.getD j.progress,
   u.image_url.getD j.image_url, u.error_message.getD j.error_message⟩

/-- Modelled from the spec: the Job Store — a registry of Jobs keyed by
generation ID, with a fresh-ID counter (`imagegenservice.py` is not in the
tree). -/
structure JobStore where
  nextId : Nat
  jobs : Nat → Option Job

/-- The empty store. -/
def JobStore.init : JobStore := ⟨0, fun _ => none⟩

/-- Modelled from the spec: `create() -> generation_id` allocates a new Job
in `processing` state with `progress = 0` and returns its ID. -/
def JobStore.create (s : JobStore) : Nat × JobStore :=
  (s.nextId, ⟨s.nextId + 1, fun k => if k = s.nextId then some freshJob else s.jobs k⟩)

/-- Modelled from the spec: `update(generation_id, partial fields)` merges
the fields into the Job; an unknown ID is a no-op reported as an error, and
an update to a Job already in a terminal state is ignored (the spec allows
reject-or-ignore; the returned flag reports whether the update was applied),
preserving the one-directional-transition invariant. -/
def JobStore.update (s : JobStore) (id : Nat) (u : JobUpdate) : JobStore × Bool :=
  match s.jobs id with
  | none => (s, false)
  | some j =>
    if j.status.isTerminal then (s, false)
    else (⟨s.nextId, fun k => if k = id then some (applyUpdate j u) else s.jobs k⟩, true)

/-- Body of a `GET /api/v1/status/...` response as documented. -/
structure StatusResponse where
  status : String
  image_url : String
  progress : Nat
  error_message : String
  deriving DecidableEq, Repr

/-- Modelled from the spec: `GetStatus` is a pure read through the store's
`get`, mapping an unknown ID to `status = "not_found"` and otherwise
returning the Job's fields verbatim. -/
def getStatus (s : JobStore) (id : Nat) : StatusResponse :=
  match s.jobs id with
  | none => ⟨"not_found", "", 0, ""⟩
  | some j => ⟨j.status.toWire, j.image_url, j.progress, j.error_message⟩

/-- A store-level operation: a Gateway `create` or a Worker write-back
through `update`. -/
inductive StoreOp where
  | create : StoreOp
  | update : Nat → JobUpdate → StoreOp
  deriving Repr

/-- Apply one store operation. -/
def JobStore.applyOp (s : JobStore) (op : StoreOp) : JobStore :=
  match op with
  | StoreOp.create => (s.create).2
  | StoreOp.update id u => (s.update id u).1

/-- Apply a sequence of store operations. -/
def JobStore.applyOps (s : JobStore) (ops : List StoreOp) : JobStore :=
  ops.foldl JobStore.applyOp s

/-! ### Generation Worker write-backs -/

/-- Modelled from the spec: the writes the Generation Worker issues through
the store's `update` — intermediate progress updates, completion with the
stored image's URL (`status = completed, image_url = <url>, progress = 100`),
or failure with a sanitized message (`imagegenservice.py` is not in the
tree). -/
inductive WorkerOp where
  | setProgress : Nat → WorkerOp
  | complete : String → WorkerOp
  | fail : String → WorkerOp
  deriving DecidableEq, Repr

/-- The partial-fields update a worker write-back corresponds to. -/
def WorkerOp.toUpdate : WorkerOp → JobUpdate
  | WorkerOp.setProgress n => ⟨none, some n, none, none⟩
  | WorkerOp.complete url => ⟨some JobStatus.completed, some 100, some url, none⟩
  | WorkerOp.fail msg => ⟨some JobStatus.failed, none, none, some msg⟩

/-- Modelled from the spec: which write-backs the Worker may emit against
the current Job — progress values are 0–100 and monotonically
non-decreasing, completion carries the non-empty URL returned by durable
storage, failure carries a non-empty sanitized message. -/
def WorkerOp.valid (j : Job) : WorkerOp → Bool
  | WorkerOp.setProgress n => decide (j.progress ≤ n) && decide (n ≤ 100)
  | WorkerOp.complete url => url != ""
  | WorkerOp.fail msg => msg != ""

/-- Effect of one worker write-back on a single Job, with the store's
ignore-when-terminal semantics. -/
def Job.step (j : Job) (op : WorkerOp) : Job :=
  if j.status.isTerminal then j else applyUpdate j op.toUpdate

/-- Run a sequence of worker write-backs against one Job. -/
def Job.run (j : Job) (ops : List WorkerOp) : Job :=
  ops.foldl Job.step j

/-- A sequence of worker write-backs where every op that reaches a live Job
is valid for the Job state it meets. -/
def validSeq : Job → List WorkerOp → Bool
  | _, [] => true
  | j, op :: rest => (j.status.isTerminal || op.valid j) && validSeq (j.step op) rest

/-- The invariant of claim C2: while `processing` both payload fields are
empty, and in a terminal state exactly the matching one is non-empty. -/
def Job.wf (j : Job) : Bool :=
  match j.status with
  | JobStatus.processing => j.image_url == "" && j.error_message == ""
  | JobStatus.completed => j.image_url != "" && j.error_message == ""
  | JobStatus.failed => j.image_url == "" && j.error_message != ""

/-- The invariant of claim C7: `progress` never exceeds 100 and equals 100
on a completed Job. -/
def Job.progressInv (j : Job) : Bool :=
  decide (j.progress ≤ 100) &&
    (match j.status with
     | JobStatus.completed => j.progress == 100
     | _ => true)

/-! ### Gateway operations -/

/-- Body of a `POST /api/v1/generate-image` response as documented
(`generation_id` is `none` when the call is rejected and no ID is issued). -/
structure GenerateResponse where
  image_url : String
  generation_id : Option Nat
  status : String
  error_message : String
  deriving DecidableEq, Repr

/-- Modelled from the spec: `SubmitGeneration` validates that `cart_items`
is non-empty (an empty cart is a synchronous client error that creates no
Job and issues no ID), otherwise calls the store's `create`, dispatches the
Worker asynchronously, and immediately returns
`{generation_id, status: "processing"}` (`imagegenservice.py` is not in the
tree). -/
def submitGeneration (s : JobStore) (req : GenerateRequest) : JobStore × GenerateResponse :=
  if req.cart_items.isEmpty then
    (s, ⟨"", none, "failed", "cart_items must not be empty"⟩)
  else
    let c := s.create
    (c.2, ⟨"", some c.1, "processing", ""⟩)

/-- Run a sequence of submissions, collecting the responses in order. -/
def submitAll (s : JobStore) : List GenerateRequest → JobStore × List GenerateResponse
  | [] => (s, [])
  | r :: rest =>
    let p := submitGeneration s r
    let q := submitAll p.1 rest
    (q.1, p.2 :: q.2)

/-- The IDs `some b, some (b+1), ..., some (b+n-1)`, the shape of the IDs a
run of accepted submissions starting at counter `b` is issued. -/
def idsFrom : Nat → Nat → List (Option Nat)
  | _, 0 => []
  | b, n + 1 => some b :: idsFrom (b + 1) n

/-- Body of a `POST /api/v1/upload-background` response as documented. -/
structure UploadResponse where
  image_url : String
  status : String
  error_message : String
  deriving DecidableEq, Repr

/-- Modelled from the spec: `UploadBackground` validates that the payload
decodes as image bytes and is at most 10 MiB, persists it to durable
storage and returns its URL on success, and otherwise returns
`{status: "failed"}` without storing anything; it never touches the Job
Store (`imagegenservice.py` is not in the tree). The image-decoding test
and the storage URL are opaque parameters. -/
def uploadBackground (decodesAsImage : List Nat → Bool) (urlFor : List Nat → String)
    (objects : List (List Nat)) (payload : List Nat) :
    List (List Nat) × UploadResponse :=
  if decodesAsImage payload && decide (payload.length ≤ 10 * 1024 * 1024) then
    (payload :: objects, ⟨urlFor payload, "success", ""⟩)
  else
    (objects, ⟨"", "failed", "invalid background image"⟩)

/-! ## Theorems -/

/-- C4 counterexample: on a `not_found` status response the polling code
falls through silently — it does not take the failure path (alert plus form
reset) that a `failed` response takes, contrary to the claim that
`not_found` is handled like a terminal failure. -/
theorem notFound_poll_counterexample :
    handlePollResult ⟨"not_found", some 0, "", ""⟩ = PollAction.stopSilently ∧
    (handlePollResult ⟨"not_found", some 0, "", ""⟩).isFailurePath = false ∧
    (handlePollResult ⟨"failed", some 0, "", ""⟩).isFailurePath = true := by
  decide

/-- C4 (amended): on every `GetStatus` response with status `not_found` the
client stops polling, but silently: it schedules no further poll, and it
takes neither the failure path nor the completed path. -/
theorem notFound_stops_polling_silently (r : PollResult)
    (h : r.status = "not_found") :
    handlePollResult r = PollAction.stopSilently ∧
    (handlePollResult r).schedulesPoll = false ∧
    (handlePollResult r).isFailurePath = false := by
  unfold handlePollResult
  rw [h]
  exact ⟨rfl, rfl, rfl⟩

/-- Witness for `notFound_stops_polling_silently` at a concrete response. -/
theorem notFound_stops_polling_silently_witness :
    handlePollResult ⟨"not_found", none, "", ""⟩ = PollAction.stopSilently ∧
    (handlePollResult ⟨"not_found", none, "", ""⟩).schedulesPoll = false ∧
    (handlePollResult ⟨"not_found", none, "", ""⟩).isFailurePath = false :=
  notFound_stops_polling_silently ⟨"not_found", none, "", ""⟩ rfl

/-- C5: when the cart item list extracted from the page is empty,
`generateImage` alerts and returns before building the request: no request
is sent to the submit endpoint, so no Job is created and no generation ID is
issued. -/
theorem emptyCart_rejected (stylePref userId : String) (bgUrl : Option String)
    (rows : List CartRow) (h : getCartItemsFromPage rows = some []) :
    generateImage stylePref userId bgUrl rows = some GenerateAction.rejectEmptyCart ∧
    ∀ req, generateImage stylePref userId bgUrl rows ≠ some (GenerateAction.sendRequest req) := by
  unfold generateImage
  rw [h]
  exact ⟨rfl, fun req hreq => by simp at hreq⟩

/-- Witness for `emptyCart_rejected`: a page with no cart rows. -/
theorem emptyCart_rejected_witness :
    generateImage "modern" "user_1" none [] = some GenerateAction.rejectEmptyCart ∧
    ∀ req, generateImage "modern" "user_1" none [] ≠ some (GenerateAction.sendRequest req) :=
  emptyCart_rejected "modern" "user_1" none [] rfl

/-- C8: one round of the polling loop schedules exactly one further poll
2000 ms later when the response status is `processing`, and schedules no
further poll once the status is `completed` or `failed`. -/
theorem poll_scheduling (r : PollResult) :
    (r.status = "processing" → handlePollResult r = PollAction.schedulePoll 2000) ∧
    (r.status = "completed" ∨ r.status = "failed" →
      (handlePollResult r).schedulesPoll = false) := by
  constructor
  · intro h
    unfold handlePollResult
    rw [h]
    rfl
  · intro h
    rcases h with h | h
    · unfold handlePollResult
      rw [h]
      rfl
    · unfold handlePollResult
      rw [h]
      rfl

/-- Witness for `poll_scheduling` at concrete `processing` and `completed`
responses. -/
theorem poll_scheduling_witness :
    handlePollResult ⟨"processing", some 10, "", ""⟩ = PollAction.schedulePoll 2000 ∧
    (handlePollResult ⟨"completed", some 100, "http://img", ""⟩).schedulesPoll = false :=
  ⟨(poll_scheduling ⟨"processing", some 10, "", ""⟩).1 rfl,
   (poll_scheduling ⟨"completed", some 100, "http://img", ""⟩).2 (Or.inl rfl)⟩

/-- If a run of client events ends with a stored background URL, either some
event of the run is a successful upload of that URL, or the starting state
already held it. -/
theorem clientRun_url_some (evs : List ClientEvent) (st : ClientState) (u : String)
    (h : (clientRun st evs).uploadedBackgroundUrl = some u) :
    (∃ e ∈ evs, e.isSuccessUpload u = true) ∨ st.uploadedBackgroundUrl = some u := by
  induction evs generalizing st with
  | nil =>
    right
    exact h
  | cons e rest ih =>
    have h' : (clientRun (clientStep st e) rest).uploadedBackgroundUrl = some u := h
    rcases ih (clientStep st e) h' with h1 | h2
    · rcases h1 with ⟨e', he', hs⟩
      exact Or.inl ⟨e', List.mem_cons_of_mem e he', hs⟩
    · cases e with
      | selectFile b =>
        right
        exact h2
      | uploadFinished r =>
        cases r with
        | response s0 url msg =>
          by_cases hs : (s0 == "success") = true
          · left
            refine ⟨ClientEvent.uploadFinished (UploadOutcome.response s0 url msg),
              List.mem_cons_self _ _, ?_⟩
            have hu : url = u := by
              simpa [clientStep, uploadBackgroundToServer, hs] using h2
            simp [ClientEvent.isSuccessUpload, hs, hu]
          · exfalso
            simp [clientStep, uploadBackgroundToServer, hs, removeBackground] at h2
        | threw =>
          exfalso
          simp [clientStep, uploadBackgroundToServer, removeBackground] at h2
      | removeBg =>
        exfalso
        simp [clientStep, removeBackground] at h2
      | resetForm =>
        exfalso
        simp [clientStep] at h2

/-- C9: a failed background-upload attempt (non-`success` response or a
thrown request) resets both `uploadedBackgroundUrl` and
`uploadedBackgroundData` to `null`, after which `generateImage` would send
`background_image_url = ""`; and over any run of the page's events,
`uploadedBackgroundUrl` holds a URL only if some event was a successful
upload of exactly that URL. -/
theorem upload_failure_resets_background (st : ClientState) (r : UploadOutcome)
    (evs : List ClientEvent) (u : String) (hfail : uploadFailedOutcome r = true) :
    ((uploadBackgroundToServer st r).uploadedBackgroundUrl = none ∧
     (uploadBackgroundToServer st r).uploadedBackgroundData = none ∧
     sentBackgroundUrl (uploadBackgroundToServer st r) = "") ∧
    ((clientRun initialClientState evs).uploadedBackgroundUrl = some u →
      ∃ e ∈ evs, e.isSuccessUpload u = true) := by
  constructor
  · cases r with
    | response s0 url msg =>
      have hs : (s0 == "success") = false := by
        simp only [uploadFailedOutcome, bne_iff_ne, ne_eq] at hfail
        simpa using hfail
      simp [uploadBackgroundToServer, hs, removeBackground, sentBackgroundUrl]
    | threw =>
      simp [uploadBackgroundToServer, removeBackground, sentBackgroundUrl]
  · intro h
    rcases clientRun_url_some evs initialClientState u h with h1 | h2
    · exact h1
    · exact absurd h2 (by simp [initialClientState])

/-- Witness for `upload_failure_resets_background`: a thrown upload resets
the state; a one-event run whose upload succeeded stored that URL. -/
theorem upload_failure_resets_background_witness :
    ((uploadBackgroundToServer ⟨some "http://old", some "d"⟩ UploadOutcome.threw).uploadedBackgroundUrl = none ∧
     (uploadBackgroundToServer ⟨some "http://old", some "d"⟩ UploadOutcome.threw).uploadedBackgroundData = none ∧
     sentBackgroundUrl (uploadBackgroundToServer ⟨some "http://old", some "d"⟩ UploadOutcome.threw) = "") ∧
    ((clientRun initialClientState
        [ClientEvent.uploadFinished (UploadOutcome.response "success" "http://bg" "")]).uploadedBackgroundUrl
        = some "http://bg" →
      ∃ e ∈ [ClientEvent.uploadFinished (UploadOutcome.response "success" "http://bg" "")],
        e.isSuccessUpload "http://bg" = true) :=
  upload_failure_resets_background ⟨some "http://old", some "d"⟩ UploadOutcome.threw
    [ClientEvent.uploadFinished (UploadOutcome.response "success" "http://bg" "")]
    "http://bg" rfl

/-- C6: a background upload whose payload does not decode as an image or
exceeds 10 MiB is answered `status = "failed"` and stores no object (the
modelled `UploadBackground` also never touches the Job Store, so no Job is
created); client-side, a file failing the same checks is rejected before any
request is sent. -/
theorem upload_rejected_invalid (decodesAsImage : List Nat → Bool)
    (urlFor : List Nat → String) (objects : List (List Nat)) (payload : List Nat)
    (f : UploadFile)
    (hserver : decodesAsImage payload = false ∨ 10 * 1024 * 1024 < payload.length)
    (hclient : strStartsWith f.type "image/" = false ∨ 10 * 1024 * 1024 < f.size) :
    (uploadBackground decodesAsImage urlFor objects payload).2.status = "failed" ∧
    (uploadBackground decodesAsImage urlFor objects payload).1 = objects ∧
    ∀ d, handleBackgroundUpload (some f) ≠ UploadClientAction.sendUpload d := by
  have hguard :
      (decodesAsImage payload && decide (payload.length ≤ 10 * 1024 * 1024)) = false := by
    rcases hserver with hdec | hlen
    · simp [hdec]
    · simp [Nat.not_le.mpr hlen]
  refine ⟨?_, ?_, ?_⟩
  · simp [uploadBackground, hguard]
  · simp [uploadBackground, hguard]
  · intro d hd
    cases hb : strStartsWith f.type "image/" with
    | false =>
      simp [handleBackgroundUpload, hb] at hd
    | true =>
      rcases hclient with hcl | hcl
      · rw [hb] at hcl
        exact absurd hcl (by simp)
      · simp [handleBackgroundUpload, hb, hcl] at hd

/-- Witness for `upload_rejected_invalid`: an empty payload rejected by the
image decoder, and a `text/plain` client file. -/
theorem upload_rejected_invalid_witness :
    (uploadBackground (fun _ => false) (fun _ => "http://bg") [] []).2.status = "failed" ∧
    (uploadBackground (fun _ => false) (fun _ => "http://bg") [] []).1 = [] ∧
    ∀ d, handleBackgroundUpload (some ⟨"text/plain", 5, "x"⟩) ≠ UploadClientAction.sendUpload d :=
  upload_rejected_invalid (fun _ => false) (fun _ => "http://bg") [] []
    ⟨"text/plain", 5, "x"⟩ (Or.inl rfl) (Or.inl (by decide))

/-- C10: evaluation of the extraction at the failing input — a cart row
with a product link makes `getCartItemsFromPage` throw (the invalid
`:contains()` selector raises a `SyntaxError` in native DOM before the
quantity is ever parsed), so nothing is extracted and the enclosing
`generateImage` call propagates the exception instead of submitting the
item the row describes. -/
theorem cart_extraction_throws_on_linked_row :
    getCartItemsFromPage [⟨some "/product/P1", some "Quantity: 2"⟩] = none ∧
    generateImage "modern" "user_1" none [⟨some "/product/P1", some "Quantity: 2"⟩] = none := by
  decide

/-- `update` on one ID leaves every other ID untouched. -/
theorem update_jobs_ne (s : JobStore) (id id2 : Nat) (u : JobUpdate) (h : id ≠ id2) :
    ((s.update id2 u).1).jobs id = s.jobs id := by
  cases hj : s.jobs id2 with
  | none => simp [JobStore.update, hj]
  | some j =>
    cases ht : j.status.isTerminal with
    | true => simp [JobStore.update, hj, ht]
    | false => simp [JobStore.update, hj, ht, h]

/-- `update` on a terminal Job is ignored and reported as not applied. -/
theorem update_terminal (s : JobStore) (id : Nat) (u : JobUpdate) (j : Job)
    (hj : s.jobs id = some j) (ht : j.status.isTerminal = true) :
    s.update id u = (s, false) := by
  simp [JobStore.update, hj, ht]

/-- `update` never changes the fresh-ID counter. -/
theorem update_nextId (s : JobStore) (id : Nat) (u : JobUpdate) :
    ((s.update id u).1).nextId = s.nextId := by
  cases hj : s.jobs id with
  | none => simp [JobStore.update, hj]
  | some j =>
    cases ht : j.status.isTerminal with
    | true => simp [JobStore.update, hj, ht]
    | false => simp [JobStore.update, hj, ht]

/-- Any sequence of store operations leaves a terminal Job in place,
unchanged, with its ID still below the fresh-ID counter. -/
theorem applyOps_preserves_terminal (ops : List StoreOp) (s : JobStore) (id : Nat)
    (j : Job) (hlt : id < s.nextId) (hj : s.jobs id = some j)
    (ht : j.status.isTerminal = true) :
    id < (s.applyOps ops).nextId ∧ (s.applyOps ops).jobs id = some j := by
  induction ops generalizing s with
  | nil => exact ⟨hlt, hj⟩
  | cons op rest ih =>
    have hstep : id < (s.applyOp op).nextId ∧ (s.applyOp op).jobs id = some j := by
      cases op with
      | create =>
        refine ⟨?_, ?_⟩
        · simp only [JobStore.applyOp, JobStore.create]
          omega
        · have hne : id ≠ s.nextId := Nat.ne_of_lt hlt
          simp [JobStore.applyOp, JobStore.create, hne, hj]
      | update id2 u =>
        refine ⟨?_, ?_⟩
        · have he : (s.applyOp (StoreOp.update id2 u)) = (s.update id2 u).1 := rfl
          rw [he, update_nextId]
          exact hlt
        · by_cases hid : id = id2
          · subst hid
            have he : (s.applyOp (StoreOp.update id u)) = (s.update id u).1 := rfl
            rw [he, update_terminal s id u j hj ht]
            exact hj
          · have he : (s.applyOp (StoreOp.update id2 u)) = (s.update id2 u).1 := rfl
            rw [he, update_jobs_ne s id id2 u hid]
            exact hj
    exact ih (s.applyOp op) hstep.1 hstep.2

/-- C1: a Job in a terminal state never changes again — every `update` to it
is ignored and reported as not applied, any sequence of later store
operations leaves it intact so that every subsequent `GetStatus` returns the
identical terminal payload, and whenever an `update` changes a Job's status
the old status was `processing`. -/
theorem terminal_state_immutable (s : JobStore) (id : Nat) (j : Job)
    (ops : List StoreOp) (hlt : id < s.nextId) (hj : s.jobs id = some j)
    (ht : j.status.isTerminal = true) :
    (∀ u, s.update id u = (s, false)) ∧
    (s.applyOps ops).jobs id = some j ∧
    getStatus (s.applyOps ops) id = getStatus s id ∧
    (∀ (s2 : JobStore) (id2 : Nat) (u2 : JobUpdate) (j2 j3 : Job),
      s2.jobs id2 = some j2 → ((s2.update id2 u2).1).jobs id2 = some j3 →
      j3.status ≠ j2.status → j2.status = JobStatus.processing) := by
  have hpres := applyOps_preserves_terminal ops s id j hlt hj ht
  refine ⟨fun u => update_terminal s id u j hj ht, hpres.2, ?_, ?_⟩
  · unfold getStatus
    rw [hpres.2, hj]
  · intro s2 id2 u2 j2 j3 h2 h3 hne
    cases hterm : j2.status.isTerminal with
    | true =>
      rw [update_terminal s2 id2 u2 j2 h2 hterm] at h3
      have h3' : s2.jobs id2 = some j3 := h3
      have hj23 : j2 = j3 := Option.some.inj (h2.symm.trans h3')
      exact absurd (congrArg Job.status hj23).symm hne
    | false =>
      cases hst : j2.status with
      | processing => rfl
      | completed =>
        rw [hst] at hterm
        exact absurd hterm (by simp [JobStatus.isTerminal])
      | failed =>
        rw [hst] at hterm
        exact absurd hterm (by simp [JobStatus.isTerminal])

/-- Witness for `terminal_state_immutable`: a store holding one completed
Job, hit by a further update and a fresh creation. -/
theorem terminal_state_immutable_witness :
    (∀ u, (⟨1, fun k => if k = 0 then some ⟨JobStatus.completed, 100, "http://img", ""⟩ else none⟩ : JobStore).update 0 u
      = (⟨1, fun k => if k = 0 then some ⟨JobStatus.completed, 100, "http://img", ""⟩ else none⟩, false)) ∧
    ((⟨1, fun k => if k = 0 then some ⟨JobStatus.completed, 100, "http://img", ""⟩ else none⟩ : JobStore).applyOps
        [StoreOp.update 0 ⟨some JobStatus.failed, none, none, some "boom"⟩, StoreOp.create]).jobs 0
      = some ⟨JobStatus.completed, 100, "http://img", ""⟩ ∧
    getStatus ((⟨1, fun k => if k = 0 then some ⟨JobStatus.completed, 100, "http://img", ""⟩ else none⟩ : JobStore).applyOps
        [StoreOp.update 0 ⟨some JobStatus.failed, none, none, some "boom"⟩, StoreOp.create]) 0
      = getStatus ⟨1, fun k => if k = 0 then some ⟨JobStatus.completed, 100, "http://img", ""⟩ else none⟩ 0 ∧
    (∀ (s2 : JobStore) (id2 : Nat) (u2 : JobUpdate) (j2 j3 : Job),
      s2.jobs id2 = some j2 → ((s2.update id2 u2).1).jobs id2 = some j3 →
      j3.status ≠ j2.status → j2.status = JobStatus.processing) :=
  terminal_state_immutable
    ⟨1, fun k => if k = 0 then some ⟨JobStatus.completed, 100, "http://img", ""⟩ else none⟩
    0 ⟨JobStatus.completed, 100, "http://img", ""⟩
    [StoreOp.update 0 ⟨some JobStatus.failed, none, none, some "boom"⟩, StoreOp.create]
    (by decide) rfl rfl

/-- One valid worker write-back preserves the payload invariant. -/
theorem wf_step (j : Job) (op : WorkerOp) (hwf : j.wf = true)
    (hv : j.status.isTerminal = true ∨ op.valid j = true) :
    (j.step op).wf = true := by
  cases hterm : j.status.isTerminal with
  | true => simpa [Job.step, hterm] using hwf
  | false =>
    have hval : op.valid j = true := by
      rcases hv with h | h
      · rw [hterm] at h
        exact absurd h (by simp)
      · exact h
    cases hst : j.status with
    | processing =>
      simp only [Job.wf, hst, Bool.and_eq_true, beq_iff_eq] at hwf
      obtain ⟨hiu, hem⟩ := hwf
      cases op with
      | setProgress n =>
        simp [Job.step, JobStatus.isTerminal, hst, applyUpdate, WorkerOp.toUpdate,
          Job.wf, hiu, hem]
      | complete url =>
        simp only [WorkerOp.valid] at hval
        simp [Job.step, JobStatus.isTerminal, hst, applyUpdate, WorkerOp.toUpdate,
          Job.wf, hem, hval]
      | fail msg =>
        simp only [WorkerOp.valid] at hval
        simp [Job.step, JobStatus.isTerminal, hst, applyUpdate, WorkerOp.toUpdate,
          Job.wf, hiu, hval]
    | completed =>
      rw [hst] at hterm
      exact absurd hterm (by simp [JobStatus.isTerminal])
    | failed =>
      rw [hst] at hterm
      exact absurd hterm (by simp [JobStatus.isTerminal])

/-- A valid sequence of worker write-backs preserves the payload
invariant. -/
theorem wf_run (ops : List WorkerOp) (j : Job) (hwf : j.wf = true)
    (hv : validSeq j ops = true) : (Job.run j ops).wf = true := by
  induction ops generalizing j with
  | nil => exact hwf
  | cons op rest ih =>
    simp only [validSeq, Bool.and_eq_true, Bool.or_eq_true] at hv
    exact ih (j.step op) (wf_step j op hwf hv.1) hv.2

/-- C2: along any valid run of worker write-backs from a well-formed Job,
the Job's payload matches its status — both fields empty while
`processing`, exactly `image_url` non-empty when `completed`, exactly
`error_message` non-empty when `failed`. -/
theorem terminal_payload_exclusive (j : Job) (ops : List WorkerOp)
    (hwf : j.wf = true) (hv : validSeq j ops = true) :
    ((Job.run j ops).status = JobStatus.processing →
      (Job.run j ops).image_url = "" ∧ (Job.run j ops).error_message = "") ∧
    ((Job.run j ops).status = JobStatus.completed →
      (Job.run j ops).image_url ≠ "" ∧ (Job.run j ops).error_message = "") ∧
    ((Job.run j ops).status = JobStatus.failed →
      (Job.run j ops).error_message ≠ "" ∧ (Job.run j ops).image_url = "") := by
  have hw := wf_run ops j hwf hv
  refine ⟨?_, ?_, ?_⟩ <;> intro hst <;>
    simp only [Job.wf, hst, Bool.and_eq_true, beq_iff_eq, bne_iff_ne, ne_eq] at hw <;>
    tauto

/-- Witness for `terminal_payload_exclusive`: a fresh Job driven to
completion through a progress update. -/
theorem terminal_payload_exclusive_witness :
    ((Job.run freshJob [WorkerOp.setProgress 40, WorkerOp.complete "http://img"]).status = JobStatus.processing →
      (Job.run freshJob [WorkerOp.setProgress 40, WorkerOp.complete "http://img"]).image_url = "" ∧
      (Job.run freshJob [WorkerOp.setProgress 40, WorkerOp.complete "http://img"]).error_message = "") ∧
    ((Job.run freshJob [WorkerOp.setProgress 40, WorkerOp.complete "http://img"]).status = JobStatus.completed →
      (Job.run freshJob [WorkerOp.setProgress 40, WorkerOp.complete "http://img"]).image_url ≠ "" ∧
      (Job.run freshJob [WorkerOp.setProgress 40, WorkerOp.complete "http://img"]).error_message = "") ∧
    ((Job.run freshJob [WorkerOp.setProgress 40, WorkerOp.complete "http://img"]).status = JobStatus.failed →
      (Job.run freshJob [WorkerOp.setProgress 40, WorkerOp.complete "http://img"]).error_message ≠ "" ∧
      (Job.run freshJob [WorkerOp.setProgress 40, WorkerOp.complete "http://img"]).image_url = "") :=
  terminal_payload_exclusive freshJob [WorkerOp.setProgress 40, WorkerOp.complete "http://img"]
    (by decide) (by decide)

/-- One valid worker write-back preserves the progress invariant and never
decreases `progress`. -/
theorem progress_step (j : Job) (op : WorkerOp) (hinv : j.progressInv = true)
    (hv : j.status.isTerminal = true ∨ op.valid j = true) :
    (j.step op).progressInv = true ∧ j.progress ≤ (j.step op).progress := by
  cases hterm : j.status.isTerminal with
  | true =>
    refine ⟨?_, ?_⟩
    · simpa [Job.step, hterm] using hinv
    · simp [Job.step, hterm]
  | false =>
    have hval : op.valid j = true := by
      rcases hv with h | h
      · rw [hterm] at h
        exact absurd h (by simp)
      · exact h
    have hle : j.progress ≤ 100 := by
      simp only [Job.progressInv, Bool.and_eq_true, decide_eq_true_eq] at hinv
      exact hinv.1
    cases hst : j.status with
    | processing =>
      cases op with
      | setProgress n =>
        simp only [WorkerOp.valid, Bool.and_eq_true, decide_eq_true_eq] at hval
        refine ⟨?_, ?_⟩
        · simp [Job.step, JobStatus.isTerminal, hst, applyUpdate, WorkerOp.toUpdate,
            Job.progressInv, hval.2]
        · simpa [Job.step, JobStatus.isTerminal, hst, applyUpdate, WorkerOp.toUpdate]
            using hval.1
      | complete url =>
        refine ⟨?_, ?_⟩
        · simp [Job.step, JobStatus.isTerminal, hst, applyUpdate, WorkerOp.toUpdate,
            Job.progressInv]
        · simpa [Job.step, JobStatus.isTerminal, hst, applyUpdate, WorkerOp.toUpdate]
            using hle
      | fail msg =>
        refine ⟨?_, ?_⟩
        · simp [Job.step, JobStatus.isTerminal, hst, applyUpdate, WorkerOp.toUpdate,
            Job.progressInv, hle]
        · simp [Job.step, JobStatus.isTerminal, hst, applyUpdate, WorkerOp.toUpdate]
    | completed =>
      rw [hst] at hterm
      exact absurd hterm (by simp [JobStatus.isTerminal])
    | failed =>
      rw [hst] at hterm
      exact absurd hterm (by simp [JobStatus.isTerminal])

/-- A valid sequence of worker write-backs preserves the progress invariant
and never decreases `progress`. -/
theorem progress_run (ops : List WorkerOp) (j : Job) (hinv : j.progressInv = true)
    (hv : validSeq j ops = true) :
    (Job.run j ops).progressInv = true ∧ j.progress ≤ (Job.run j ops).progress := by
  induction ops generalizing j with
  | nil => exact ⟨hinv, Nat.le_refl _⟩
  | cons op rest ih =>
    simp only [validSeq, Bool.and_eq_true, Bool.or_eq_true] at hv
    have hstep := progress_step j op hinv hv.1
    have hrest := ih (j.step op) hstep.1 hv.2
    exact ⟨hrest.1, Nat.le_trans hstep.2 hrest.2⟩

/-- C7: along any valid run of worker write-backs, `progress` stays within
0–100, equals 100 whenever the Job is `completed`, and never decreases
between one observation and any later one. -/
theorem progress_bounded_monotone (j : Job) (ops more : List WorkerOp)
    (hinv : j.progressInv = true) (hv : validSeq j ops = true)
    (hm : validSeq (Job.run j ops) more = true) :
    (Job.run j ops).progress ≤ 100 ∧
    ((Job.run j ops).status = JobStatus.completed → (Job.run j ops).progress = 100) ∧
    (Job.run j ops).progress ≤ (Job.run (Job.run j ops) more).progress := by
  have h1 := progress_run ops j hinv hv
  have h2 := progress_run more (Job.run j ops) h1.1 hm
  have hinv1 := h1.1
  refine ⟨?_, ?_, h2.2⟩
  · simp only [Job.progressInv, Bool.and_eq_true, decide_eq_true_eq] at hinv1
    exact hinv1.1
  · intro hst
    simp only [Job.progressInv, hst, Bool.and_eq_true, decide_eq_true_eq, beq_iff_eq] at hinv1
    exact hinv1.2

/-- Witness for `progress_bounded_monotone`: a fresh Job observed after one
progress update and again after completion. -/
theorem progress_bounded_monotone_witness :
    (Job.run freshJob [WorkerOp.setProgress 30]).progress ≤ 100 ∧
    ((Job.run freshJob [WorkerOp.setProgress 30]).status = JobStatus.completed →
      (Job.run freshJob [WorkerOp.setProgress 30]).progress = 100) ∧
    (Job.run freshJob [WorkerOp.setProgress 30]).progress ≤
      (Job.run (Job.run freshJob [WorkerOp.setProgress 30]) [WorkerOp.complete "http://img"]).progress :=
  progress_bounded_monotone freshJob [WorkerOp.setProgress 30] [WorkerOp.complete "http://img"]
    (by decide) (by decide) (by decide)

/-- Every element of `idsFrom b n` is a `some` at least `b`. -/
theorem mem_idsFrom (n : Nat) : ∀ (b : Nat) (x : Option Nat),
    x ∈ idsFrom b n → ∃ k, x = some k ∧ b ≤ k := by
  induction n with
  | zero =>
    intro b x hx
    simp [idsFrom] at hx
  | succ m ih =>
    intro b x hx
    simp only [idsFrom, List.mem_cons] at hx
    rcases hx with rfl | hx
    · exact ⟨b, rfl, Nat.le_refl b⟩
    · rcases ih (b + 1) x hx with ⟨k, hk, hbk⟩
      exact ⟨k, hk, Nat.le_of_succ_le hbk⟩

/-- The ID lists issued by runs of submissions have no duplicates. -/
theorem idsFrom_nodup (n : Nat) : ∀ b, (idsFrom b n).Nodup := by
  induction n with
  | zero =>
    intro b
    simp [idsFrom]
  | succ m ih =>
    intro b
    simp only [idsFrom, List.nodup_cons]
    refine ⟨?_, ih (b + 1)⟩
    intro hmem
    rcases mem_idsFrom m (b + 1) (some b) hmem with ⟨k, hk, hbk⟩
    obtain rfl : b = k := Option.some.inj hk
    omega

/-- A run of submissions with non-empty carts issues consecutive fresh IDs,
advances the counter by one per call, and answers `processing` each time. -/
theorem submitAll_spec (reqs : List GenerateRequest) : ∀ (s : JobStore),
    (∀ r ∈ reqs, r.cart_items ≠ []) →
    (submitAll s reqs).2.map GenerateResponse.generation_id = idsFrom s.nextId reqs.length ∧
    (submitAll s reqs).1.nextId = s.nextId + reqs.length ∧
    ∀ resp ∈ (submitAll s reqs).2, resp.status = "processing" := by
  induction reqs with
  | nil =>
    intro s _
    exact ⟨rfl, rfl, by simp [submitAll]⟩
  | cons r rest ih =>
    intro s h
    have hr : r.cart_items ≠ [] := h r (List.mem_cons_self _ _)
    have hre : r.cart_items.isEmpty = false := by
      cases hc : r.cart_items with
      | nil => exact absurd hc hr
      | cons a l => rfl
    have hsub : submitGeneration s r
        = ((s.create).2, ⟨"", some s.nextId, "processing", ""⟩) := by
      simp [submitGeneration, hre, JobStore.create]
    have hrest : ∀ r2 ∈ rest, r2.cart_items ≠ [] :=
      fun r2 h2 => h r2 (List.mem_cons_of_mem _ h2)
    have ihs := ih (s.create).2 hrest
    have hrun : submitAll s (r :: rest)
        = ((submitAll (s.create).2 rest).1,
           (⟨"", some s.nextId, "processing", ""⟩ : GenerateResponse)
             :: (submitAll (s.create).2 rest).2) := by
      simp only [submitAll, hsub]
    refine ⟨?_, ?_, ?_⟩
    · rw [hrun]
      simp only [List.map_cons]
      rw [ihs.1]
      rfl
    · rw [hrun]
      have hn := ihs.2.1
      simp only [JobStore.create] at hn ⊢
      simp only [List.length_cons]
      omega
    · rw [hrun]
      intro resp hresp
      rcases List.mem_cons.mp hresp with rfl | hmem
      · rfl
      · exact ihs.2.2 resp hmem

/-- C3: every submission with a non-empty cart is answered with status
exactly `processing` and a generation ID distinct from that of every other
submission of the run — identical inputs included — and each call allocates
a new Job (the counter grows by one per call: no deduplication). -/
theorem submit_processing_unique (s : JobStore) (reqs : List GenerateRequest)
    (h : ∀ r ∈ reqs, r.cart_items ≠ []) :
    (∀ resp ∈ (submitAll s reqs).2, resp.status = "processing") ∧
    ((submitAll s reqs).2.map GenerateResponse.generation_id).Nodup ∧
    (submitAll s reqs).1.nextId = s.nextId + reqs.length := by
  have hs := submitAll_spec reqs s h
  refine ⟨hs.2.2, ?_, hs.2.1⟩
  rw [hs.1]
  exact idsFrom_nodup reqs.length s.nextId

/-- Witness for `submit_processing_unique`: two submissions with identical
non-empty inputs still get distinct IDs and both answer `processing`. -/
theorem submit_processing_unique_witness :
    (∀ resp ∈ (submitAll JobStore.init
        [⟨"u", "modern", "", [⟨"P1", 1⟩]⟩, ⟨"u", "modern", "", [⟨"P1", 1⟩]⟩]).2,
      resp.status = "processing") ∧
    ((submitAll JobStore.init
        [⟨"u", "modern", "", [⟨"P1", 1⟩]⟩, ⟨"u", "modern", "", [⟨"P1", 1⟩]⟩]).2.map
        GenerateResponse.generation_id).Nodup ∧
    (submitAll JobStore.init
        [⟨"u", "modern", "", [⟨"P1", 1⟩]⟩, ⟨"u", "modern", "", [⟨"P1", 1⟩]⟩]).1.nextId
      = JobStore.init.nextId + 2 :=
  submit_processing_unique JobStore.init
    [⟨"u", "modern", "", [⟨"P1", 1⟩]⟩, ⟨"u", "modern", "", [⟨"P1", 1⟩]⟩]
    (by decide)

end ImageGen
